import Mathlib

/-!
Shallow embedding of `src/order_dashboard.py`, an order-delay analytics
dashboard, together with proofs about its column normalisation, pipeline
gating, filtering and aggregation logic.

Modelling conventions:
* dataframe cells are `Cell` (integer numerics, strings, booleans, missing);
  numeric values are modelled as integers — every numeric constant the
  dashboard compares against (`-1`, `0`, `1`) is an integer;
* a dataframe (`Frame`) is a column-name list plus rows given as
  association lists from column name to cell (pandas columns are dynamic);
* `pd.to_numeric(errors="coerce")` is `toNumericCell` (unparseable → `na`);
* dividing a group statistic by a zero total, which pandas evaluates to NaN
  without raising, is modelled as `Option ℚ` with `none` as the NaN
  ("no data") outcome;
* `sort_values` and `nlargest` are modelled by an insertion sort that keeps
  the earlier row among equal keys, and `groupby` sorts its keys with
  missing keys last, as pandas does.
-/

namespace OrderDashboard

/-- A character kept verbatim by the normalisation regex `[^a-z0-9]+`
(after lowercasing): a lowercase ASCII letter or a digit. -/
def isAlnumLower (c : Char) : Bool :=
  ((('a' : Char) ≤ c) && (c ≤ ('z' : Char))) || ((('0' : Char) ≤ c) && (c ≤ ('9' : Char)))

/-- One step of collapsing: the boolean records whether the previous
character was already replaced by an underscore (so that a maximal run of
non-alphanumeric characters yields a single underscore). -/
def collapseStep (acc : List Char × Bool) (c : Char) : List Char × Bool :=
  if isAlnumLower c then (acc.1 ++ [c], false)
  else if acc.2 then acc else (acc.1 ++ [('_' : Char)], true)

/-- Python `str.strip` on a character list: drop leading and trailing
whitespace. -/
def stripChars (l : List Char) : List Char :=
  ((l.dropWhile Char.isWhitespace).reverse.dropWhile Char.isWhitespace).reverse

/-- `normString s` embeds `re.sub(r'[^a-z0-9]+', '_', s.strip().lower())`
from `normalize_cols` / `find_col`: trim, lowercase, then replace every
maximal run of characters outside `[a-z0-9]` by a single underscore.
Trimming and lowercasing are performed on the character list (whitespace
characters are unaffected by lowercasing, so the order agrees with the
Python expression). -/
def normString (s : String) : String :=
  String.mk (((stripChars s.toList).map Char.toLower).foldl collapseStep ([], false)).1

/-- The normalized-header lookup built by `normalize_cols`: a Python dict
from normalized header to original header, populated in header order so a
later header overwrites an earlier one with the same normalized key.  The
dict is modelled as an association list built by inserting at the head, so
`List.lookup` (first match) returns the most recently inserted (= later)
header. -/
def mkMapping (headers : List String) : List (String × String) :=
  headers.foldl (fun m c => (normString c, c) :: m) []

/-- `find_col(mapping, candidates)`: return the original header stored in
the mapping under the first candidate whose normalized form is a key of the
mapping, and `none` when no candidate matches. -/
def find_col (mapping : List (String × String)) : List String → Option String
  | [] => none
  | cand :: rest =>
    match mapping.lookup (normString cand) with
    | some actual => some actual
    | none => find_col mapping rest

/-- Modelled from the spec words for comparison with `mkMapping` lookup:
"if two literal headers normalize to the same key, the later one wins" —
fold over the headers in order, keeping the last header whose normalized
form equals the key. -/
def lastWinsLookup (headers : List String) (k : String) : Option String :=
  headers.foldl (fun acc h => if normString h == k then some h else acc) none

/-- Modelled from the spec words for comparison with `find_col`: "return
the original header for the first candidate whose normalized form is
present in the lookup", with the lookup resolving by last-write-wins. -/
def findColSpec (headers cands : List String) : Option String :=
  (cands.find? (fun c => (headers.map normString).contains (normString c))).bind
    (fun c => lastWinsLookup headers (normString c))

/-- A dataframe cell: an integer numeric, a string, a boolean, or missing
(NaN).  Numerics are modelled as integers; every numeric constant the
dashboard compares against (`-1`, `0`, `1`) is an integer. -/
inductive Cell
  | num (n : Int)
  | str (s : String)
  | bool (b : Bool)
  | na
deriving DecidableEq, Repr

/-- A dataframe row: an association list from column name to cell. -/
abbrev Row := List (String × Cell)

/-- A dataframe: its column names and its rows. -/
structure Frame where
  cols : List String
  rows : List Row
deriving DecidableEq, Repr

/-- Read a cell of a row; a column absent from the row reads as missing. -/
def getCell (r : Row) (c : String) : Cell := (r.lookup c).getD Cell.na

/-- The static alias table `candidates` (source lines 66-77), verbatim,
including its duplicated entries. -/
def candidates : List (String × List String) :=
  [("order_id", ["order_id", "order id", "orderid"]),
   ("order_region", ["order_region", "order region", "region"]),
   ("order_country", ["order_country", "order country", "country"]),
   ("shipping_mode", ["shipping_mode", "shipping mode", "shipping_mode", "shippingmode"]),
   ("category_name", ["category_name", "category name", "category"]),
   ("product_name", ["product_name", "product name", "product"]),
   ("sales", ["sales", "sales_per_customer", "sales_per_order", "sales_total"]),
   ("profit_per_order", ["profit_per_order", "profit_per_order", "order_profit_per_order", "profit"]),
   ("quantity", ["order_item_quantity", "quantity", "order_item_qty", "qty"]),
   ("label", ["label", "order_status", "delay_flag", "delay_status"])]

/-- The `found` dict (source lines 79-82): each logical field paired with
the literal header `find_col` resolves it to, in alias-table order. -/
def foundMap (headers : List String) : List (String × Option String) :=
  candidates.map (fun p => (p.1, find_col (mkMapping headers) p.2))

/-- `missing_critical` (source line 84): the unresolved fields among
`label`, `order_region`, `shipping_mode`, in `found` iteration order. -/
def missing_critical (headers : List String) : List String :=
  ((foundMap headers).filter
      (fun p => p.2.isNone &&
        (p.1 == "label" || p.1 == "order_region" || p.1 == "shipping_mode"))).map
    Prod.fst

/-- The `rename_map` dict (source line 92) mapping each resolved literal
header to its logical field name; built by head insertion so that, as for a
Python dict, a later logical field overwrites an earlier one that resolved
to the same literal header. -/
def rename_map (found : List (String × Option String)) : List (String × String) :=
  found.foldl
    (fun m p => match p.2 with
      | some actual => (actual, p.1) :: m
      | none => m)
    []

/-- Rename one column name through `rename_map`; unresolved columns keep
their original names, as `DataFrame.rename` does. -/
def renameCol (rmap : List (String × String)) (c : String) : String :=
  (rmap.lookup c).getD c

/-- `work = df.copy().rename(columns=rename_map)` (source lines 90-93). -/
def renameFrame (found : List (String × Option String)) (f : Frame) : Frame :=
  { cols := f.cols.map (renameCol (rename_map found)),
    rows := f.rows.map (fun r => r.map (fun kv => (renameCol (rename_map found) kv.1, kv.2))) }

/-- Write cell `v` into column `c` of a row: overwrite the column's entry
when present, append it otherwise.  (`getCell` observes the first entry
of a column, so this matches a pandas column assignment.) -/
def setCell : Row → String → Cell → Row
  | [], c, v => [(c, v)]
  | kv :: rest, c, v =>
    if kv.1 = c then (c, v) :: rest else kv :: setCell rest c v

/-- The numeric value of a decimal digit character, `none` otherwise. -/
def digitVal (c : Char) : Option Nat :=
  if (('0' : Char) ≤ c) && (c ≤ ('9' : Char)) then some (c.toNat - '0'.toNat) else none

/-- Parse a non-empty all-digit character list as a natural number. -/
def parseDigits : List Char → Option Nat
  | [] => none
  | l => l.foldl (fun acc c => acc.bind (fun n => (digitVal c).map (fun d => n * 10 + d))) (some 0)

/-- Parse an optionally signed integer literal. -/
def parseIntChars : List Char → Option Int
  | '-' :: rest => (parseDigits rest).map (fun n => -(n : Int))
  | '+' :: rest => (parseDigits rest).map (fun n => (n : Int))
  | l => (parseDigits l).map (fun n => (n : Int))

/-- Whether a string parses as an integer, and its value. -/
def strToIntQ (s : String) : Option Int := parseIntChars s.toList

/-- `pd.to_numeric(·, errors="coerce")`: numerics pass through, booleans
become 0/1, strings that parse as integer literals become numeric,
anything else becomes missing.  (Numerics are modelled as integers, so
string parsing covers integer literals.) -/
def toNumericCell : Cell → Cell
  | Cell.num n => Cell.num n
  | Cell.str s =>
    match strToIntQ s with
    | some n => Cell.num n
    | none => Cell.na
  | Cell.bool b => Cell.num (if b then 1 else 0)
  | Cell.na => Cell.na

/-- `.fillna(0)` on a single cell. -/
def fillna0 : Cell → Cell
  | Cell.na => Cell.num 0
  | c => c

/-- `work[c] = g(work[c])` on one row: read the column's cell (missing for
a row not carrying it) and write back `g` of it.  Other columns are
untouched. -/
def updCol (c : String) (g : Cell → Cell) (r : Row) : Row :=
  setCell r c (g (getCell r c))

/-- The type-coercion stage (source lines 96-99): coerce `label` to
numeric with unparseable values becoming missing, then coerce each of
`sales`, `profit_per_order`, `quantity` (when the column exists) to
numeric with missing results filled with 0. -/
def coerceFrame (f : Frame) : Frame :=
  let f1 : Frame := { f with rows := f.rows.map (updCol "label" toNumericCell) }
  ["sales", "profit_per_order", "quantity"].foldl
    (fun acc col =>
      if col ∈ acc.cols then
        { acc with rows := acc.rows.map (updCol col (fun v => fillna0 (toNumericCell v))) }
      else acc)
    f1

/-- The working record set: renamed and coerced raw records. -/
def workOf (df : Frame) : Frame :=
  coerceFrame (renameFrame (foundMap df.cols) df)

/-- Outcome of the load/normalize/rename/coerce pipeline head: an abort
carrying the missing mandatory fields and the literal headers shown by
`st.error` (source line 86) before `st.stop()`, or the working frame. -/
inductive LoadResult
  | abort (missing : List String) (headers : List String)
  | ok (work : Frame)
deriving DecidableEq, Repr

/-- Source lines 84-99: abort when a mandatory logical field is
unresolved, otherwise rename and coerce.  The abort constructor carries no
frame: no renaming, coercion, filtering or aggregation happens after it. -/
def pipelineResult (df : Frame) : LoadResult :=
  if missing_critical df.cols = [] then LoadResult.ok (workOf df)
  else LoadResult.abort (missing_critical df.cols) df.cols

/-- `Series.isin(values)` on a single cell: pandas membership, under
which a missing value matches only a missing value in the value list. -/
def isinSel (c : Cell) (sel : List Cell) : Bool := sel.contains c

/-- The filter stage (source lines 129-133): `filtered = work.copy()`,
then restrict to the selected regions when the region selection is
non-empty, then to the selected shipping modes when that selection is
non-empty; by Python list truthiness an empty selection skips its
predicate entirely. -/
def filteredFrame (w : Frame) (sel_regions sel_shipping : List Cell) : Frame :=
  let f1 := if "order_region" ∈ w.cols ∧ sel_regions ≠ [] then
      { w with rows := w.rows.filter (fun r => isinSel (getCell r "order_region") sel_regions) }
    else w
  if "shipping_mode" ∈ f1.cols ∧ sel_shipping ≠ [] then
    { f1 with rows := f1.rows.filter (fun r => isinSel (getCell r "shipping_mode") sel_shipping) }
  else f1

/-- Lexicographic comparison of character lists (string order), written
structurally so that it evaluates in the kernel. -/
def charListLe : List Char → List Char → Bool
  | [], _ => true
  | _ :: _, [] => false
  | a :: as, b :: bs => if a = b then charListLe as bs else decide (a < b)

/-- Rank of a cell kind, used to order cells of different kinds. -/
def cellRank : Cell → Nat
  | Cell.num _ => 0
  | Cell.bool _ => 1
  | Cell.str _ => 2
  | Cell.na => 3

/-- Total order on cells, used where `groupby` and `sorted` order keys:
numerics by value, booleans with false first, strings lexicographically,
and missing values last (pandas places NaN last; the order across cell
kinds is a modelling choice — pandas raises on mixed-type keys). -/
def cellLe (a b : Cell) : Bool :=
  match a, b with
  | Cell.num m, Cell.num n => decide (m ≤ n)
  | Cell.bool x, Cell.bool y => !x || y
  | Cell.str s, Cell.str t => charListLe s.toList t.toList
  | a, b => decide (cellRank a ≤ cellRank b)

/-- Insert into a sorted duplicate-free list, keeping it sorted and
duplicate-free. -/
def insSortedBy {α : Type} [DecidableEq α] (le : α → α → Bool) (x : α) : List α → List α
  | [] => [x]
  | y :: ys =>
    if x = y then y :: ys
    else if le x y then x :: y :: ys
    else y :: insSortedBy le x ys

/-- `sorted(unique(l))`: the distinct values of `l` in ascending order. -/
def sortedDistinctBy {α : Type} [DecidableEq α] (le : α → α → Bool) (l : List α) : List α :=
  l.foldl (fun acc x => insSortedBy le x acc) []

/-- One step of a stable descending sort: `x` goes before the first
element it is strictly greater than, hence after earlier equal keys. -/
def insertByDesc {α : Type} (gt : α → α → Bool) (x : α) : List α → List α
  | [] => [x]
  | y :: ys => if gt x y then x :: y :: ys else y :: insertByDesc gt x ys

/-- Stable descending sort (`sort_values(ascending=False)`), by inserting
each element in list order. -/
def sortByDesc {α : Type} (gt : α → α → Bool) (l : List α) : List α :=
  l.foldl (fun acc x => insertByDesc gt x acc) []

/-- The values of column `c` of a frame, row by row. -/
def seriesVals (f : Frame) (c : String) : List Cell :=
  f.rows.map (fun r => getCell r c)

/-- `sorted(f[c].dropna().unique())`. -/
def sortedUniqueVals (f : Frame) (c : String) : List Cell :=
  sortedDistinctBy cellLe ((seriesVals f c).filter (fun v => v != Cell.na))

/-- The region filter options (source line 124): the sorted distinct
non-missing region values, or `[]` when the column is absent. -/
def regionOptions (w : Frame) : List Cell :=
  if "order_region" ∈ w.cols then sortedUniqueVals w "order_region" else []

/-- The shipping-mode filter options (source line 125). -/
def shipOptions (w : Frame) : List Cell :=
  if "shipping_mode" ∈ w.cols then sortedUniqueVals w "shipping_mode" else []

/-- `int((work["label"] == -1).sum()) if "label" in work.columns else 0`
(source line 108). -/
def delayed_count (w : Frame) : Nat :=
  if "label" ∈ w.cols then
    (w.rows.filter (fun r => getCell r "label" == Cell.num (-1))).length
  else 0

/-- Count of rows with label exactly 0 (source line 109). -/
def ontime_count (w : Frame) : Nat :=
  if "label" ∈ w.cols then
    (w.rows.filter (fun r => getCell r "label" == Cell.num 0)).length
  else 0

/-- Count of rows with label exactly 1 (source line 110). -/
def early_count (w : Frame) : Nat :=
  if "label" ∈ w.cols then
    (w.rows.filter (fun r => getCell r "label" == Cell.num 1)).length
  else 0

/-- `len(work)` (source line 107). -/
def total_orders (w : Frame) : Nat := w.rows.length

/-- A raw frame whose label column holds the example values
`{-1, -1, 0, 1, "bad", missing}`. -/
def coercionSampleDf : Frame :=
  { cols := ["label", "order_region", "shipping_mode"],
    rows :=
      [[("label", Cell.num (-1)), ("order_region", Cell.str "West"), ("shipping_mode", Cell.str "First Class")],
       [("label", Cell.num (-1)), ("order_region", Cell.str "West"), ("shipping_mode", Cell.str "First Class")],
       [("label", Cell.num 0), ("order_region", Cell.str "West"), ("shipping_mode", Cell.str "First Class")],
       [("label", Cell.num 1), ("order_region", Cell.str "West"), ("shipping_mode", Cell.str "First Class")],
       [("label", Cell.str "bad"), ("order_region", Cell.str "West"), ("shipping_mode", Cell.str "First Class")],
       [("label", Cell.na), ("order_region", Cell.str "West"), ("shipping_mode", Cell.str "First Class")]] }

/-- A two-row working frame used to instantiate the filter-engine
theorems on concrete data. -/
def filterSampleWork : Frame :=
  { cols := ["order_region", "shipping_mode", "label"],
    rows :=
      [[("order_region", Cell.str "West"), ("shipping_mode", Cell.str "First Class"), ("label", Cell.num (-1))],
       [("order_region", Cell.str "East"), ("shipping_mode", Cell.str "Standard Class"), ("label", Cell.num 0)]] }

/-- A working frame whose single row has a missing region: all observed
region values are missing, so the seeded region selection is empty. -/
def missingRegionWork : Frame :=
  { cols := ["order_region", "shipping_mode", "label"],
    rows :=
      [[("order_region", Cell.na), ("shipping_mode", Cell.str "First Class"), ("label", Cell.num 0)]] }

/-- One row of a delay summary table: group key, delayed count, total
count and delay percentage, where `none` models the NaN that pandas
produces for a zero-total group (0/0 never raises). -/
structure SummaryRow where
  key : Cell
  delay_count : Nat
  total_count : Nat
  delay_pct : Option ℚ
deriving DecidableEq, Repr

/-- `delay_count / total_count * 100` with the 0/0 NaN outcome as `none`. -/
def delayPct (d t : Nat) : Option ℚ :=
  if t = 0 then none else some (((d : ℚ) / (t : ℚ)) * 100)

/-- `groupby(keyCol)["label"].count()` for the group with key `k`: the
rows of the group whose label is not missing. -/
def countLabelBy (rows : List Row) (keyCol : String) (k : Cell) : Nat :=
  (rows.filter (fun r => getCell r keyCol == k && getCell r "label" != Cell.na)).length

/-- Source lines 250-255.  NOTE: the delayed side filters `label == 1`,
exactly as the code does (the dashboard's own legend says `-1` means
delayed — see C3).  Group keys are the sorted distinct shipping modes
(`dropna=False` keeps a missing-mode group); the left merge plus
`fillna(0)` makes a mode with no delayed rows count 0; the table is
sorted descending by delayed count. -/
def delay_summary_ship (flt : Frame) : List SummaryRow :=
  let modes := sortedDistinctBy cellLe (flt.rows.map (fun r => getCell r "shipping_mode"))
  let delayedRows := flt.rows.filter (fun r => getCell r "label" == Cell.num 1)
  sortByDesc (fun a b => decide (a.delay_count > b.delay_count))
    (modes.map (fun m =>
      { key := m,
        delay_count := countLabelBy delayedRows "shipping_mode" m,
        total_count := countLabelBy flt.rows "shipping_mode" m,
        delay_pct := delayPct (countLabelBy delayedRows "shipping_mode" m)
          (countLabelBy flt.rows "shipping_mode" m) }))

/-- Source lines 269-273: the same summary grouped by region, with the
delayed side filtering `label == -1`. -/
def delay_summary_region (flt : Frame) : List SummaryRow :=
  let regions := sortedDistinctBy cellLe (flt.rows.map (fun r => getCell r "order_region"))
  let delayedRows := flt.rows.filter (fun r => getCell r "label" == Cell.num (-1))
  sortByDesc (fun a b => decide (a.delay_count > b.delay_count))
    (regions.map (fun rg =>
      { key := rg,
        delay_count := countLabelBy delayedRows "order_region" rg,
        total_count := countLabelBy flt.rows "order_region" rg,
        delay_pct := delayPct (countLabelBy delayedRows "order_region" rg)
          (countLabelBy flt.rows "order_region" rg) }))

/-- Python `str(x)` as `astype(str)` renders cells: strings verbatim,
integers as decimal literals, booleans as `True`/`False`, missing as
`"nan"`. -/
def cellToStr : Cell → String
  | Cell.str s => s
  | Cell.num n => toString n
  | Cell.bool b => if b then "True" else "False"
  | Cell.na => "nan"

/-- Add a column name, keeping the list unchanged when already present. -/
def addColName (cols : List String) (c : String) : List String :=
  if c ∈ cols then cols else cols ++ [c]

/-- Source lines 334-343 applied to one row: write the `origin`,
`destination` and `is_delayed` columns into the row in place. -/
def routeExtendRow (r : Row) : Row :=
  let r1 := setCell r "origin"
    (Cell.str (cellToStr (getCell r "Order city") ++ ", " ++ cellToStr (getCell r "Order Country")))
  let r2 := setCell r1 "destination"
    (Cell.str (cellToStr (getCell r1 "Customer city") ++ ", " ++
      cellToStr (getCell r1 "Customer Country")))
  setCell r2 "is_delayed" (Cell.bool (getCell r2 "label" == Cell.num (-1)))

/-- The in-place mutation of `filtered` by the routes feature (source
lines 334-343): three derived columns are written into the frame. -/
def addRouteCols (f : Frame) : Frame :=
  { cols := addColName (addColName (addColName f.cols "origin") "destination") "is_delayed",
    rows := f.rows.map routeExtendRow }

/-- Lexicographic order on key pairs. -/
def pairLe (a b : Cell × Cell) : Bool :=
  if a.1 = b.1 then cellLe a.2 b.2 else cellLe a.1 b.1

/-- One row of the per-route aggregation `route_grp`. -/
structure RouteRow where
  origin : Cell
  destination : Cell
  total_orders : Nat
  delayed_orders : Nat
  delay_pct : Option ℚ
deriving DecidableEq, Repr

/-- Source lines 346-357: group by `(origin, destination)` (`dropna`
defaults to dropping missing keys; route keys are built by `astype(str)`
and are never missing), count non-missing labels, sum `is_delayed`, and
compute the delay percentage. -/
def routeGrp (f : Frame) : List RouteRow :=
  ((sortedDistinctBy pairLe
      (f.rows.map (fun r => (getCell r "origin", getCell r "destination")))).filter
    (fun k => k.1 != Cell.na && k.2 != Cell.na)).map
    (fun k =>
      { origin := k.1, destination := k.2,
        total_orders :=
          ((f.rows.filter (fun r =>
              getCell r "origin" == k.1 && getCell r "destination" == k.2)).filter
            (fun r => getCell r "label" != Cell.na)).length,
        delayed_orders :=
          ((f.rows.filter (fun r =>
              getCell r "origin" == k.1 && getCell r "destination" == k.2)).filter
            (fun r => getCell r "is_delayed" == Cell.bool true)).length,
        delay_pct :=
          delayPct
            ((f.rows.filter (fun r =>
                getCell r "origin" == k.1 && getCell r "destination" == k.2)).filter
              (fun r => getCell r "is_delayed" == Cell.bool true)).length
            ((f.rows.filter (fun r =>
                getCell r "origin" == k.1 && getCell r "destination" == k.2)).filter
              (fun r => getCell r "label" != Cell.na)).length })

/-- Descending comparison on optional percentages; `nlargest` never
selects a NaN value. -/
def optRatGt (a b : Option ℚ) : Bool :=
  match a, b with
  | some x, some y => decide (y < x)
  | some _, none => true
  | none, _ => false

/-- `route_grp.nlargest(10, "delay_pct")` (source line 360): the 10 rows
of highest percentage, NaN percentages dropped, earlier rows kept on
ties. -/
def top10Routes (l : List RouteRow) : List RouteRow :=
  (sortByDesc (fun a b => optRatGt a.delay_pct b.delay_pct)
    (l.filter (fun e => e.delay_pct != none))).take 10

/-- `req_cols` (source lines 325-326): the literal column names the
routes feature requires, checked verbatim against `filtered.columns`. -/
def req_cols : List String :=
  ["Order city", "Order Country", "Customer city", "Customer Country", "label"]

/-- Outcome of the routes feature: the first missing required literal
column name shown by `st.error` before `st.stop()` (and no routes
output), or the top-10 table together with the mutated frame. -/
inductive RoutesResult
  | abort (missingCol : String)
  | ok (top10 : List RouteRow) (newFiltered : Frame)
deriving DecidableEq, Repr

/-- Source lines 328-360: check each required literal column name in
order, aborting at the first one absent; otherwise write the derived
columns into `filtered` and aggregate. -/
def routesStage (f : Frame) : RoutesResult :=
  match req_cols.find? (fun c => !(f.cols.contains c)) with
  | some c => RoutesResult.abort c
  | none => RoutesResult.ok (top10Routes (routeGrp (addRouteCols f))) (addRouteCols f)

/-- `std_df = filtered[filtered["shipping_mode"] == "Standard Class"].copy()`
followed by `std_df["is_delayed"] = std_df["label"] == -1` (source lines
288-291): the Standard-Class view derives its column on a copy, never on
`filtered` itself. -/
def std_df (f : Frame) : Frame :=
  { cols := addColName f.cols "is_delayed",
    rows := (f.rows.filter
        (fun r => getCell r "shipping_mode" == Cell.str "Standard Class")).map
      (fun r => setCell r "is_delayed" (Cell.bool (getCell r "label" == Cell.num (-1)))) }

/-- The frame `filtered` refers to after every view has run: every view
up to and including the Standard-Class one reads `filtered` (or a copy)
without reassigning or writing into it, and the routes feature either
stops before touching it or writes its three derived columns into it. -/
def renderTail (f : Frame) : Frame :=
  match routesStage f with
  | RoutesResult.abort _ => f
  | RoutesResult.ok _ f2 => f2

/-- `groupby(...).sum()` contribution of one cell (post-coercion measure
columns are numeric; missing values are skipped by pandas `sum`, i.e.
contribute 0). -/
def cellInt0 : Cell → Int
  | Cell.num n => n
  | Cell.bool b => if b then 1 else 0
  | Cell.str _ => 0
  | Cell.na => 0

/-- One row of `prof_prod`: summed profit per (region, product). -/
structure ProdRow where
  order_region : Cell
  product_name : Cell
  profit : Int
deriving DecidableEq, Repr

/-- Source line 199: sum of `profit_per_order` grouped by
`(order_region, product_name)` with `dropna=False`, keys in sorted
order. -/
def prof_prod (flt : Frame) : List ProdRow :=
  (sortedDistinctBy pairLe
      (flt.rows.map (fun r => (getCell r "order_region", getCell r "product_name")))).map
    (fun k =>
      { order_region := k.1, product_name := k.2,
        profit := ((flt.rows.filter (fun r =>
            getCell r "order_region" == k.1 && getCell r "product_name" == k.2)).map
          (fun r => cellInt0 (getCell r "profit_per_order"))).sum })

/-- `Series.idxmax`: the first element attaining the maximum value. -/
def firstMaxBy {α : Type} (val : α → Int) : List α → Option α
  | [] => none
  | x :: xs =>
    match firstMaxBy val xs with
    | none => some x
    | some y => some (if val x ≥ val y then x else y)

/-- Source lines 200-201: for each region of `prof_prod` (its `groupby`
drops a missing-region group), the first row of that region's group
attaining the maximal summed profit. -/
def best_prod (flt : Frame) : List ProdRow :=
  ((sortedDistinctBy cellLe ((prof_prod flt).map (fun e => e.order_region))).filter
      (fun c => c != Cell.na)).filterMap
    (fun rg =>
      firstMaxBy (fun e => e.profit)
        ((prof_prod flt).filter (fun e => e.order_region == rg)))

/-- A filtered frame on which the source's delayed-side criterion
(`label == 1`) and the documented one (`label == -1`) disagree. -/
def shipBugSample : Frame :=
  { cols := ["shipping_mode", "label"],
    rows :=
      [[("shipping_mode", Cell.str "First Class"), ("label", Cell.num (-1))],
       [("shipping_mode", Cell.str "First Class"), ("label", Cell.num (-1))],
       [("shipping_mode", Cell.str "Second Class"), ("label", Cell.num 1)]] }

/-- A frame whose only row has a missing label, so its group's label
count — hence the percentage denominator — is 0. -/
def zeroTotalSample : Frame :=
  { cols := ["shipping_mode", "order_region", "label"],
    rows :=
      [[("shipping_mode", Cell.str "Air"), ("order_region", Cell.str "West"), ("label", Cell.na)]] }

/-- A route-extended frame whose only route group has label count 0. -/
def zeroTotalRouteSample : Frame :=
  { cols := ["origin", "destination", "label", "is_delayed"],
    rows :=
      [[("origin", Cell.str "Lima, Peru"), ("destination", Cell.str "Quito, Ecuador"),
        ("label", Cell.na), ("is_delayed", Cell.bool false)]] }

/-- A raw frame carrying case variants of every column the routes
feature needs: `order city` only differs from the required literal
`"Order city"` by case, and `Order Country` resolves to (and is renamed
to) the logical field `order_country`. -/
def routesHeaderSampleDf : Frame :=
  { cols := ["label", "Order Region", "Shipping Mode", "order city", "Order Country",
      "Customer city", "Customer Country"],
    rows := [] }

/-- A filtered frame carrying all five required literal route columns
and one row. -/
def routesMutSample : Frame :=
  { cols := ["order_region", "shipping_mode", "label", "Order city", "Order Country",
      "Customer city", "Customer Country"],
    rows :=
      [[("order_region", Cell.str "West"), ("shipping_mode", Cell.str "First Class"),
        ("label", Cell.num (-1)), ("Order city", Cell.str "Lima"),
        ("Order Country", Cell.str "Peru"), ("Customer city", Cell.str "Quito"),
        ("Customer Country", Cell.str "Ecuador")]] }

/-- A filtered frame in which two products of one region tie for the
maximal summed profit. -/
def tieSample : Frame :=
  { cols := ["order_region", "product_name", "profit_per_order"],
    rows :=
      [[("order_region", Cell.str "West"), ("product_name", Cell.str "Banana"),
        ("profit_per_order", Cell.num 100)],
       [("order_region", Cell.str "West"), ("product_name", Cell.str "Apple"),
        ("profit_per_order", Cell.num 60)],
       [("order_region", Cell.str "West"), ("product_name", Cell.str "Apple"),
        ("profit_per_order", Cell.num 40)]] }

/-- The grouped row `(West, Apple, 100)` of `tieSample`, the expected
winner of the tie. -/
def appleBest : ProdRow :=
  { order_region := Cell.str "West", product_name := Cell.str "Apple", profit := 100 }

theorem mkMapping_concat (hs : List String) (h : String) :
    mkMapping (hs ++ [h]) = (normString h, h) :: mkMapping hs := by
  simp [mkMapping, List.foldl_append]

theorem lastWinsLookup_concat (hs : List String) (h k : String) :
    lastWinsLookup (hs ++ [h]) k =
      (if normString h == k then some h else lastWinsLookup hs k) := by
  simp [lastWinsLookup, List.foldl_append]

/-- The dict built by `normalize_cols` realises last-write-wins lookup. -/
theorem lookup_mkMapping (headers : List String) (k : String) :
    (mkMapping headers).lookup k = lastWinsLookup headers k := by
  induction headers using List.reverseRecOn with
  | nil => rfl
  | append_singleton hs h ih =>
    rw [mkMapping_concat, lastWinsLookup_concat]
    by_cases hk : normString h = k
    · simp [List.lookup, hk]
    · have h1 : (k == normString h) = false :=
        beq_eq_false_iff_ne.mpr (fun e => hk e.symm)
      have h2 : (normString h == k) = false := beq_eq_false_iff_ne.mpr hk
      simp [List.lookup, h1, h2, ih]

/-- A key is absent from the last-write-wins lookup exactly when it is not
the normalized form of any header. -/
theorem lastWinsLookup_eq_none_iff (headers : List String) (k : String) :
    lastWinsLookup headers k = none ↔ k ∉ headers.map normString := by
  induction headers using List.reverseRecOn with
  | nil => simp [lastWinsLookup]
  | append_singleton hs h ih =>
    rw [lastWinsLookup_concat]
    by_cases hk : normString h = k
    · simp [hk]
    · have h2 : (normString h == k) = false := beq_eq_false_iff_ne.mpr hk
      have hks : ¬ k = normString h := fun e => hk e.symm
      simp [h2, ih, hks]

/-- C1. Column normalizer resolution.  The resolver `find_col` over the
lookup built by `normalize_cols` (i) coincides with the specification
resolver `findColSpec` — normalise each header and each candidate with the
trim/lowercase/collapse rule `normString`, pick the first candidate (in the
field's fixed candidate order) whose normalized form is a key of the
lookup, return the original header it maps to; (ii) the lookup itself is
last-write-wins, so of two headers normalizing to the same key the later
header wins; and (iii) a field resolves to `none` exactly when no
candidate's normalized form matches any normalized header.  Resolution is
a function of the header list alone, so it never depends on row values. -/
theorem claim_c1 (headers cands : List String) (k : String) :
    find_col (mkMapping headers) cands = findColSpec headers cands ∧
    (mkMapping headers).lookup k = lastWinsLookup headers k ∧
    (find_col (mkMapping headers) cands = none ↔
      ∀ c ∈ cands, normString c ∉ headers.map normString) := by
  refine ⟨?_, lookup_mkMapping headers k, ?_⟩
  · induction cands with
    | nil => rfl
    | cons c rest ih =>
      show (match (mkMapping headers).lookup (normString c) with
            | some actual => some actual
            | none => find_col (mkMapping headers) rest) = _
      rw [lookup_mkMapping]
      rcases hc : lastWinsLookup headers (normString c) with _ | a
      · have hmem : normString c ∉ headers.map normString :=
          (lastWinsLookup_eq_none_iff headers (normString c)).mp hc
        have hcont : ((headers.map normString).contains (normString c)) = false := by
          cases hb : ((headers.map normString).contains (normString c)) with
          | false => rfl
          | true => exact absurd (List.elem_iff.mp hb) hmem
        unfold findColSpec
        rw [List.find?_cons, hcont]
        exact ih
      · have hmem : normString c ∈ headers.map normString := by
          by_contra hn
          rw [(lastWinsLookup_eq_none_iff headers (normString c)).mpr hn] at hc
          exact Option.noConfusion hc
        have hcont : ((headers.map normString).contains (normString c)) = true :=
          List.elem_iff.mpr hmem
        unfold findColSpec
        rw [List.find?_cons, hcont]
        simp [hc]
  · induction cands with
    | nil => simp [find_col]
    | cons c rest ih =>
      show (match (mkMapping headers).lookup (normString c) with
            | some actual => some actual
            | none => find_col (mkMapping headers) rest) = none ↔ _
      rw [lookup_mkMapping]
      rcases hc : lastWinsLookup headers (normString c) with _ | a
      · have hmem : normString c ∉ headers.map normString :=
          (lastWinsLookup_eq_none_iff headers (normString c)).mp hc
        simp only [List.mem_cons, forall_eq_or_imp]
        constructor
        · intro hnone
          exact ⟨hmem, ih.mp hnone⟩
        · intro hall
          exact ih.mpr hall.2
      · have hmem : normString c ∈ headers.map normString := by
          by_contra hn
          rw [(lastWinsLookup_eq_none_iff headers (normString c)).mpr hn] at hc
          exact Option.noConfusion hc
        constructor
        · intro h
          simp at h
        · intro hall
          exact absurd hmem (hall c (List.mem_cons_self c rest))

theorem missing_critical_eq (headers : List String) :
    missing_critical headers =
      (if (find_col (mkMapping headers) ["order_region", "order region", "region"]).isNone
        then ["order_region"] else []) ++
      (if (find_col (mkMapping headers)
            ["shipping_mode", "shipping mode", "shipping_mode", "shippingmode"]).isNone
        then ["shipping_mode"] else []) ++
      (if (find_col (mkMapping headers) ["label", "order_status", "delay_flag", "delay_status"]).isNone
        then ["label"] else []) := by
  rcases h1 : find_col (mkMapping headers) ["order_region", "order region", "region"] with _ | a1 <;>
    rcases h2 : find_col (mkMapping headers)
        ["shipping_mode", "shipping mode", "shipping_mode", "shippingmode"] with _ | a2 <;>
      rcases h3 : find_col (mkMapping headers) ["label", "order_status", "delay_flag", "delay_status"]
          with _ | a3 <;>
        simp [missing_critical, foundMap, candidates, h1, h2, h3]

theorem missing_critical_eq_nil_iff (headers : List String) :
    missing_critical headers = [] ↔
      (find_col (mkMapping headers) ["order_region", "order region", "region"] ≠ none ∧
       find_col (mkMapping headers)
          ["shipping_mode", "shipping mode", "shipping_mode", "shippingmode"] ≠ none ∧
       find_col (mkMapping headers) ["label", "order_status", "delay_flag", "delay_status"] ≠ none) := by
  rw [missing_critical_eq]
  rcases h1 : find_col (mkMapping headers) ["order_region", "order region", "region"] with _ | a1 <;>
    rcases h2 : find_col (mkMapping headers)
        ["shipping_mode", "shipping mode", "shipping_mode", "shippingmode"] with _ | a2 <;>
      rcases h3 : find_col (mkMapping headers) ["label", "order_status", "delay_flag", "delay_status"]
          with _ | a3 <;>
        simp

/-- C2. Mandatory-field abort.  The pipeline head aborts exactly when one
of the three mandatory logical fields (label, order region, shipping mode)
is unresolved by the alias resolver; the abort carries the list of
unresolved mandatory fields together with the full literal header list,
and carries no working frame, so no renaming, coercion, filtering or
aggregation happens after it; and when all three fields resolve, the
result is the renamed and coerced working frame with no abort. -/
theorem claim_c2 (df : Frame) :
    (pipelineResult df = LoadResult.abort (missing_critical df.cols) df.cols ↔
      (find_col (mkMapping df.cols) ["label", "order_status", "delay_flag", "delay_status"] = none ∨
       find_col (mkMapping df.cols) ["order_region", "order region", "region"] = none ∨
       find_col (mkMapping df.cols)
          ["shipping_mode", "shipping mode", "shipping_mode", "shippingmode"] = none)) ∧
    (∀ m h, pipelineResult df = LoadResult.abort m h →
      m = missing_critical df.cols ∧ h = df.cols) ∧
    ((find_col (mkMapping df.cols) ["order_region", "order region", "region"] ≠ none ∧
      find_col (mkMapping df.cols)
          ["shipping_mode", "shipping mode", "shipping_mode", "shippingmode"] ≠ none ∧
      find_col (mkMapping df.cols) ["label", "order_status", "delay_flag", "delay_status"] ≠ none) →
      pipelineResult df = LoadResult.ok (workOf df)) := by
  refine ⟨?_, ?_, ?_⟩
  · by_cases h : missing_critical df.cols = []
    · rcases (missing_critical_eq_nil_iff df.cols).mp h with ⟨n1, n2, n3⟩
      simp [pipelineResult, h, n1, n2, n3]
    · have hnall : ¬ (find_col (mkMapping df.cols) ["order_region", "order region", "region"] ≠ none ∧
          find_col (mkMapping df.cols)
              ["shipping_mode", "shipping mode", "shipping_mode", "shippingmode"] ≠ none ∧
          find_col (mkMapping df.cols) ["label", "order_status", "delay_flag", "delay_status"] ≠ none) :=
        fun hall => h ((missing_critical_eq_nil_iff df.cols).mpr hall)
      simp only [pipelineResult, if_neg h]
      constructor
      · intro _
        by_contra hor
        push_neg at hor
        exact hnall ⟨hor.2.1, hor.2.2, hor.1⟩
      · intro _
        trivial
  · intro m hh habort
    by_cases h : missing_critical df.cols = []
    · simp [pipelineResult, h] at habort
    · simp only [pipelineResult, if_neg h, LoadResult.abort.injEq] at habort
      exact ⟨habort.1.symm, habort.2.symm⟩
  · intro hall
    have h : missing_critical df.cols = [] := (missing_critical_eq_nil_iff df.cols).mpr hall
    simp [pipelineResult, h]

/-- A concrete instance of C2: a header set containing spelling variants
of all three mandatory fields resolves with no abort. -/
theorem claim_c2_witness :
    pipelineResult { cols := ["label", "Order Region", "Shipping Mode"], rows := [] } =
      LoadResult.ok (workOf { cols := ["label", "Order Region", "Shipping Mode"], rows := [] }) :=
  (claim_c2 { cols := ["label", "Order Region", "Shipping Mode"], rows := [] }).2.2
    ⟨by decide, by decide, by decide⟩

theorem lookup_setCell (r : Row) (c c2 : String) (v : Cell) :
    (setCell r c v).lookup c2 = if c2 = c then some v else r.lookup c2 := by
  induction r with
  | nil =>
    by_cases h : c2 = c
    · subst h
      simp [setCell, List.lookup]
    · have hb : (c2 == c) = false := beq_eq_false_iff_ne.mpr h
      simp [setCell, List.lookup, hb, h]
  | cons kv rest ih =>
    unfold setCell
    by_cases h1 : kv.1 = c
    · rw [if_pos h1]
      by_cases h2 : c2 = c
      · subst h2
        simp [List.lookup]
      · have hb : (c2 == c) = false := beq_eq_false_iff_ne.mpr h2
        have h3 : ¬ c2 = kv.1 := by
          rw [h1]
          exact h2
        have hb3 : (c2 == kv.1) = false := beq_eq_false_iff_ne.mpr h3
        simp [List.lookup, hb, hb3, h2]
    · rw [if_neg h1]
      by_cases h2 : c2 = kv.1
      · have h3 : ¬ c2 = c := by
          intro e
          rw [h2] at e
          exact h1 e
        subst h2
        simp [List.lookup, h3]
      · have hb2 : (c2 == kv.1) = false := beq_eq_false_iff_ne.mpr h2
        simp [List.lookup, hb2, ih]

theorem getCell_setCell (r : Row) (c c2 : String) (v : Cell) :
    getCell (setCell r c v) c2 = if c2 = c then v else getCell r c2 := by
  unfold getCell
  rw [lookup_setCell]
  by_cases h : c2 = c <;> simp [h]

theorem getCell_updCol (c : String) (g : Cell → Cell) (r : Row) (c2 : String) :
    getCell (updCol c g r) c2 = if c2 = c then g (getCell r c) else getCell r c2 := by
  unfold updCol
  rw [getCell_setCell]

theorem mem_insSortedBy {α : Type} [DecidableEq α] (le : α → α → Bool) (x y : α)
    (l : List α) : x ∈ insSortedBy le y l ↔ x = y ∨ x ∈ l := by
  induction l with
  | nil => simp [insSortedBy]
  | cons z zs ih =>
    unfold insSortedBy
    by_cases h1 : y = z
    · subst h1
      by_cases h2 : x = y <;> simp [h2]
    · by_cases h2 : le y z
      · simp [h1, h2]
      · simp [h1, h2, ih]
        tauto

theorem mem_foldl_insSortedBy {α : Type} [DecidableEq α] (le : α → α → Bool) (x : α)
    (l acc : List α) :
    x ∈ l.foldl (fun a v => insSortedBy le v a) acc ↔ x ∈ acc ∨ x ∈ l := by
  induction l generalizing acc with
  | nil => simp
  | cons z zs ih =>
    rw [List.foldl_cons, ih, mem_insSortedBy]
    simp
    tauto

theorem mem_sortedDistinctBy {α : Type} [DecidableEq α] (le : α → α → Bool) (x : α)
    (l : List α) : x ∈ sortedDistinctBy le l ↔ x ∈ l := by
  unfold sortedDistinctBy
  rw [mem_foldl_insSortedBy]
  simp

theorem mem_insertByDesc {α : Type} (gt : α → α → Bool) (x y : α) (l : List α) :
    x ∈ insertByDesc gt y l ↔ x = y ∨ x ∈ l := by
  induction l with
  | nil => simp [insertByDesc]
  | cons z zs ih =>
    unfold insertByDesc
    by_cases h : gt y z
    · simp [h]
    · simp [h, ih]
      tauto

theorem mem_foldl_insertByDesc {α : Type} (gt : α → α → Bool) (x : α) (l acc : List α) :
    x ∈ l.foldl (fun a v => insertByDesc gt v a) acc ↔ x ∈ acc ∨ x ∈ l := by
  induction l generalizing acc with
  | nil => simp
  | cons z zs ih =>
    rw [List.foldl_cons, ih, mem_insertByDesc]
    simp
    tauto

theorem mem_sortByDesc {α : Type} (gt : α → α → Bool) (x : α) (l : List α) :
    x ∈ sortByDesc gt l ↔ x ∈ l := by
  unfold sortByDesc
  rw [mem_foldl_insertByDesc]
  simp

/-- C4. Filter engine semantics: with both filterable columns present in
the working frame, the filtered rows are exactly the rows whose region
passes the region predicate and whose shipping mode passes the
shipping-mode predicate, where an empty selection list makes its
predicate vacuous ("allow all"); columns are unchanged; and with an empty
region selection the filtered rows are the working rows restricted only
by the shipping-mode predicate. -/
theorem claim_c4 (w : Frame) (sel_regions sel_shipping : List Cell)
    (hr : "order_region" ∈ w.cols) (hs : "shipping_mode" ∈ w.cols) :
    (filteredFrame w sel_regions sel_shipping).cols = w.cols ∧
    (filteredFrame w sel_regions sel_shipping).rows =
      w.rows.filter (fun r =>
        (sel_regions.isEmpty || isinSel (getCell r "order_region") sel_regions) &&
        (sel_shipping.isEmpty || isinSel (getCell r "shipping_mode") sel_shipping)) ∧
    (filteredFrame w [] sel_shipping).rows =
      w.rows.filter (fun r =>
        sel_shipping.isEmpty || isinSel (getCell r "shipping_mode") sel_shipping) := by
  refine ⟨?_, ?_, ?_⟩
  · rcases sel_regions with _ | ⟨a, as⟩ <;> rcases sel_shipping with _ | ⟨b, bs⟩ <;>
      simp [filteredFrame, hr, hs]
  · rcases sel_regions with _ | ⟨a, as⟩ <;> rcases sel_shipping with _ | ⟨b, bs⟩
    · simp [filteredFrame]
    · simp [filteredFrame, hs]
    · simp [filteredFrame, hr]
    · simp only [filteredFrame, hr, hs, ne_eq, reduceCtorEq, not_false_eq_true, and_self,
        if_true, List.isEmpty_cons, Bool.false_or]
      rw [List.filter_filter]
      apply List.filter_congr
      intro x _
      exact Bool.and_comm _ _
  · rcases sel_shipping with _ | ⟨b, bs⟩
    · simp [filteredFrame]
    · simp [filteredFrame, hs]

/-- A concrete instance of C4 at a two-row working frame with a singleton
region selection and an empty shipping-mode selection. -/
theorem claim_c4_witness :
    (filteredFrame filterSampleWork [Cell.str "West"] []).cols = filterSampleWork.cols ∧
    (filteredFrame filterSampleWork [Cell.str "West"] []).rows =
      filterSampleWork.rows.filter (fun r =>
        (([Cell.str "West"] : List Cell).isEmpty ||
          isinSel (getCell r "order_region") [Cell.str "West"]) &&
        (([] : List Cell).isEmpty || isinSel (getCell r "shipping_mode") [])) ∧
    (filteredFrame filterSampleWork [] []).rows =
      filterSampleWork.rows.filter (fun r =>
        ([] : List Cell).isEmpty || isinSel (getCell r "shipping_mode") []) :=
  claim_c4 filterSampleWork [Cell.str "West"] [] (by decide) (by decide)

theorem filteredFrame_rows_both (w : Frame) (q t : Cell) (qs ts : List Cell)
    (hr : "order_region" ∈ w.cols) (hs : "shipping_mode" ∈ w.cols) :
    (filteredFrame w (q :: qs) (t :: ts)).rows =
      (w.rows.filter (fun r => isinSel (getCell r "order_region") (q :: qs))).filter
        (fun r => isinSel (getCell r "shipping_mode") (t :: ts)) := by
  simp [filteredFrame, hr, hs]

theorem na_not_mem_sortedUniqueVals (f : Frame) (c : String) :
    Cell.na ∉ sortedUniqueVals f c := by
  intro hmem
  rw [sortedUniqueVals, mem_sortedDistinctBy] at hmem
  have hp := List.of_mem_filter hmem
  simp at hp

theorem na_not_mem_regionOptions (w : Frame) : Cell.na ∉ regionOptions w := by
  unfold regionOptions
  split_ifs
  · exact na_not_mem_sortedUniqueVals w "order_region"
  · simp

theorem na_not_mem_shipOptions (w : Frame) : Cell.na ∉ shipOptions w := by
  unfold shipOptions
  split_ifs
  · exact na_not_mem_sortedUniqueVals w "shipping_mode"
  · simp

/-- C10 as stated is false: in the degenerate working set whose only
observed region value is missing, the seeded ("default") region selection
is empty, so the region predicate is skipped and the missing-region row
survives default filtering — it is not excluded. -/
theorem claim_c10_counterexample :
    [("order_region", Cell.na), ("shipping_mode", Cell.str "First Class"), ("label", Cell.num 0)] ∈
      (filteredFrame missingRegionWork (regionOptions missingRegionWork)
        (shipOptions missingRegionWork)).rows ∧
    getCell [("order_region", Cell.na), ("shipping_mode", Cell.str "First Class"),
      ("label", Cell.num 0)] "order_region" = Cell.na := by
  constructor
  · decide
  · decide

/-- C10 amended: the filter options are the sorted distinct non-missing
values (missing is never an option); when both seeded selections are
non-empty — i.e. each field has at least one non-missing observed value —
every row with a missing region or shipping mode is excluded from the
default-filtered rows; and a row passing the shipping-mode predicate is
retained once the region selection is cleared, whatever its region. -/
theorem claim_c10_amended (w : Frame) (r : Row) :
    (regionOptions w ≠ [] → shipOptions w ≠ [] →
      r ∈ (filteredFrame w (regionOptions w) (shipOptions w)).rows →
      getCell r "order_region" ≠ Cell.na ∧ getCell r "shipping_mode" ≠ Cell.na) ∧
    (r ∈ w.rows → isinSel (getCell r "shipping_mode") (shipOptions w) = true →
      r ∈ (filteredFrame w [] (shipOptions w)).rows) ∧
    Cell.na ∉ regionOptions w ∧ Cell.na ∉ shipOptions w := by
  refine ⟨?_, ?_, na_not_mem_regionOptions w, na_not_mem_shipOptions w⟩
  · intro hro hso hmem
    have hrc : "order_region" ∈ w.cols := by
      by_contra habs
      exact hro (by simp [regionOptions, habs])
    have hsc : "shipping_mode" ∈ w.cols := by
      by_contra habs
      exact hso (by simp [shipOptions, habs])
    rcases hrl : regionOptions w with _ | ⟨q, qs⟩
    · exact absurd hrl hro
    rcases hsl : shipOptions w with _ | ⟨t, ts⟩
    · exact absurd hsl hso
    rw [hrl, hsl] at hmem
    rw [filteredFrame_rows_both w q t qs ts hrc hsc] at hmem
    obtain ⟨h1, hgs⟩ := List.mem_filter.mp hmem
    obtain ⟨_, hgr⟩ := List.mem_filter.mp h1
    constructor
    · intro e
      have : getCell r "order_region" ∈ regionOptions w := by
        rw [hrl]
        exact List.elem_iff.mp hgr
      rw [e] at this
      exact na_not_mem_regionOptions w this
    · intro e
      have : getCell r "shipping_mode" ∈ shipOptions w := by
        rw [hsl]
        exact List.elem_iff.mp hgs
      rw [e] at this
      exact na_not_mem_shipOptions w this
  · intro hr hisin
    simp only [filteredFrame, ne_eq, not_true_eq_false, and_false, if_false]
    split_ifs with h
    · exact List.mem_filter.mpr ⟨hr, hisin⟩
    · exact hr

/-- A concrete instance of C10 amended, at a working set with observed
non-missing region and shipping-mode values. -/
theorem claim_c10_amended_witness :
    (getCell [("order_region", Cell.str "West"), ("shipping_mode", Cell.str "First Class"),
        ("label", Cell.num (-1))] "order_region" ≠ Cell.na ∧
      getCell [("order_region", Cell.str "West"), ("shipping_mode", Cell.str "First Class"),
        ("label", Cell.num (-1))] "shipping_mode" ≠ Cell.na) ∧
    [("order_region", Cell.str "West"), ("shipping_mode", Cell.str "First Class"),
      ("label", Cell.num (-1))] ∈
      (filteredFrame filterSampleWork [] (shipOptions filterSampleWork)).rows ∧
    Cell.na ∉ regionOptions filterSampleWork ∧ Cell.na ∉ shipOptions filterSampleWork :=
  ⟨(claim_c10_amended filterSampleWork
      [("order_region", Cell.str "West"), ("shipping_mode", Cell.str "First Class"),
        ("label", Cell.num (-1))]).1 (by decide) (by decide) (by decide),
   (claim_c10_amended filterSampleWork
      [("order_region", Cell.str "West"), ("shipping_mode", Cell.str "First Class"),
        ("label", Cell.num (-1))]).2.1 (by decide) (by decide),
   (claim_c10_amended filterSampleWork
      [("order_region", Cell.str "West"), ("shipping_mode", Cell.str "First Class"),
        ("label", Cell.num (-1))]).2.2.1,
   (claim_c10_amended filterSampleWork
      [("order_region", Cell.str "West"), ("shipping_mode", Cell.str "First Class"),
        ("label", Cell.num (-1))]).2.2.2⟩

/-- C5. Type coercion and label counts.  After renaming: every coerced
row comes from a raw row with its label replaced by `toNumericCell` of the
raw label, and each present measure column (sales, profit per order,
quantity) replaced by `toNumericCell` then `fillna(0)`; an unparseable
string coerces to missing for the label and to exactly 0 for a measure;
a missing label satisfies none of the three exact-label predicates, so
such rows are excluded from every count keyed on an exact label value;
and on the example label column `{-1, -1, 0, 1, "bad", missing}` the
pipeline yields delayed = 2, on-time = 1, early = 1 with 4 rows carrying
a valid label. -/
theorem claim_c5 :
    (∀ (f : Frame) (r : Row), r ∈ (coerceFrame f).rows →
      ∃ r0 ∈ f.rows,
        getCell r "label" = toNumericCell (getCell r0 "label") ∧
        (∀ c ∈ (["sales", "profit_per_order", "quantity"] : List String),
          c ∈ f.cols → getCell r c = fillna0 (toNumericCell (getCell r0 c)))) ∧
    (∀ s : String, strToIntQ s = none →
      toNumericCell (Cell.str s) = Cell.na ∧
      fillna0 (toNumericCell (Cell.str s)) = Cell.num 0) ∧
    (∀ r : Row, getCell r "label" = Cell.na →
      (getCell r "label" == Cell.num (-1)) = false ∧
      (getCell r "label" == Cell.num 0) = false ∧
      (getCell r "label" == Cell.num 1) = false) ∧
    (delayed_count (workOf coercionSampleDf) = 2 ∧
     ontime_count (workOf coercionSampleDf) = 1 ∧
     early_count (workOf coercionSampleDf) = 1 ∧
     ((workOf coercionSampleDf).rows.filter
        (fun r => getCell r "label" != Cell.na)).length = 4) := by
  refine ⟨?_, ?_, ?_, ?_⟩
  · intro f r hr
    simp only [coerceFrame, List.foldl_cons, List.foldl_nil] at hr
    split_ifs at hr with h1 h2 h3 h4 h5 h6 h7 <;>
      simp only [List.map_map, List.mem_map, Function.comp] at hr <;>
        obtain ⟨r0, h0, rfl⟩ := hr <;>
          refine ⟨r0, h0, by simp [getCell_updCol], ?_⟩ <;>
            intro c hc hcol <;>
              rcases (by simpa using hc :
                  c = "sales" ∨ c = "profit_per_order" ∨ c = "quantity") with rfl | rfl | rfl <;>
                first
                  | exact absurd hcol h1
                  | exact absurd hcol h2
                  | exact absurd hcol h3
                  | exact absurd hcol h4
                  | exact absurd hcol h5
                  | exact absurd hcol h6
                  | exact absurd hcol h7
                  | simp [getCell_updCol]
  · intro s hs
    simp [toNumericCell, fillna0, hs]
  · intro r hr
    rw [hr]
    refine ⟨rfl, rfl, rfl⟩
  · refine ⟨by decide, by decide, by decide, by decide⟩

/-- A concrete instance of C5: the coerced frame built from the example
raw frame contains a row whose raw label was the unparseable string
"bad", and that row's coerced label is missing and matches none of the
three label codes. -/
theorem claim_c5_witness :
    (∃ r0 ∈ coercionSampleDf.rows,
      getCell (updCol "label" toNumericCell
          [("label", Cell.str "bad"), ("order_region", Cell.str "West"),
            ("shipping_mode", Cell.str "First Class")]) "label" =
        toNumericCell (getCell r0 "label") ∧
      (∀ c ∈ (["sales", "profit_per_order", "quantity"] : List String),
        c ∈ coercionSampleDf.cols →
        getCell (updCol "label" toNumericCell
            [("label", Cell.str "bad"), ("order_region", Cell.str "West"),
              ("shipping_mode", Cell.str "First Class")]) c =
          fillna0 (toNumericCell (getCell r0 c)))) ∧
    (toNumericCell (Cell.str "bad") = Cell.na ∧
      fillna0 (toNumericCell (Cell.str "bad")) = Cell.num 0) ∧
    ((getCell [("label", Cell.na)] "label" == Cell.num (-1)) = false ∧
      (getCell [("label", Cell.na)] "label" == Cell.num 0) = false ∧
      (getCell [("label", Cell.na)] "label" == Cell.num 1) = false) :=
  ⟨claim_c5.1 coercionSampleDf
      (updCol "label" toNumericCell
        [("label", Cell.str "bad"), ("order_region", Cell.str "West"),
          ("shipping_mode", Cell.str "First Class")]) (by decide),
   claim_c5.2.1 "bad" (by decide),
   claim_c5.2.2.1 [("label", Cell.na)] (by decide)⟩

/-- C3 names the code's deviation: on `shipBugSample` (two First-Class
rows with label `-1`, one Second-Class row with label `1`) the
delay-by-shipping-mode summary counts the `label == 1` row as delayed and
misses both `label == -1` rows: First Class — which has the two delayed
rows — reports `delay_count = 0`, while Second Class reports
`delay_count = 1` from its early row.  The percentage and sort-order
parts of the claim hold (0/2·100 and 1/1·100, sorted descending by the
delayed count). -/
theorem claim_c3_eval :
    delay_summary_ship shipBugSample =
      [{ key := Cell.str "Second Class", delay_count := 1, total_count := 1,
         delay_pct := delayPct 1 1 },
       { key := Cell.str "First Class", delay_count := 0, total_count := 2,
         delay_pct := delayPct 0 2 }] ∧
    delayPct 1 1 = some 100 ∧
    delayPct 0 2 = some 0 ∧
    (shipBugSample.rows.filter (fun r =>
        getCell r "shipping_mode" == Cell.str "First Class" &&
        getCell r "label" == Cell.num (-1))).length = 2 ∧
    (shipBugSample.rows.filter (fun r =>
        getCell r "shipping_mode" == Cell.str "Second Class" &&
        getCell r "label" == Cell.num (-1))).length = 0 := by
  refine ⟨by rfl, ?_, ?_, by decide, by decide⟩
  · rw [delayPct]
    norm_num
  · rw [delayPct]
    norm_num

/-- C7. Zero-total guard: in each of the three delay summaries (by
shipping mode, by region, per route) an entry whose total count is 0 has
the defined "no data" percentage `none` — the NaN pandas produces for
0/0 — and the computation is total, never a division fault. -/
theorem claim_c7 (flt f2 : Frame) (e1 e2 : SummaryRow) (e3 : RouteRow) :
    (e1 ∈ delay_summary_ship flt → e1.total_count = 0 → e1.delay_pct = none) ∧
    (e2 ∈ delay_summary_region flt → e2.total_count = 0 → e2.delay_pct = none) ∧
    (e3 ∈ routeGrp f2 → e3.total_orders = 0 → e3.delay_pct = none) := by
  refine ⟨?_, ?_, ?_⟩
  · intro hmem h0
    simp only [delay_summary_ship] at hmem
    rw [mem_sortByDesc] at hmem
    obtain ⟨m, hm, rfl⟩ := List.mem_map.mp hmem
    simp only at h0 ⊢
    simp [delayPct, h0]
  · intro hmem h0
    simp only [delay_summary_region] at hmem
    rw [mem_sortByDesc] at hmem
    obtain ⟨m, hm, rfl⟩ := List.mem_map.mp hmem
    simp only at h0 ⊢
    simp [delayPct, h0]
  · intro hmem h0
    simp only [routeGrp] at hmem
    obtain ⟨k, hk, rfl⟩ := List.mem_map.mp hmem
    dsimp only at h0 ⊢
    rw [delayPct, if_pos h0]

/-- A concrete instance of C7: each summary, evaluated on a frame whose
only group has zero countable labels, yields the `none` percentage. -/
theorem claim_c7_witness :
    ({ key := Cell.str "Air", delay_count := 0, total_count := 0,
       delay_pct := none } : SummaryRow).delay_pct = none ∧
    ({ key := Cell.str "West", delay_count := 0, total_count := 0,
       delay_pct := none } : SummaryRow).delay_pct = none ∧
    ({ origin := Cell.str "Lima, Peru", destination := Cell.str "Quito, Ecuador",
       total_orders := 0, delayed_orders := 0, delay_pct := none } : RouteRow).delay_pct = none :=
  ⟨(claim_c7 zeroTotalSample zeroTotalRouteSample
      { key := Cell.str "Air", delay_count := 0, total_count := 0, delay_pct := none }
      { key := Cell.str "West", delay_count := 0, total_count := 0, delay_pct := none }
      { origin := Cell.str "Lima, Peru", destination := Cell.str "Quito, Ecuador",
        total_orders := 0, delayed_orders := 0, delay_pct := none }).1
    (by decide) (by decide),
   (claim_c7 zeroTotalSample zeroTotalRouteSample
      { key := Cell.str "Air", delay_count := 0, total_count := 0, delay_pct := none }
      { key := Cell.str "West", delay_count := 0, total_count := 0, delay_pct := none }
      { origin := Cell.str "Lima, Peru", destination := Cell.str "Quito, Ecuador",
        total_orders := 0, delayed_orders := 0, delay_pct := none }).2.1
    (by decide) (by decide),
   (claim_c7 zeroTotalSample zeroTotalRouteSample
      { key := Cell.str "Air", delay_count := 0, total_count := 0, delay_pct := none }
      { key := Cell.str "West", delay_count := 0, total_count := 0, delay_pct := none }
      { origin := Cell.str "Lima, Peru", destination := Cell.str "Quito, Ecuador",
        total_orders := 0, delayed_orders := 0, delay_pct := none }).2.2
    (by decide) (by decide)⟩

/-- C6 as stated is false: the routes feature does not resolve its four
required columns through the alias/normalization rule.  On a dataset
whose headers contain a case variant of every required route column
(`order city` differs from the required literal `"Order city"` only by
case, and `Order Country` — the exact spelling the check wants — is
renamed away to the logical field `order_country` by the earlier rename
stage), each required column is present up to normalization, yet the
feature aborts naming `Order city`. -/
theorem claim_c6_counterexample :
    normString "Order city" ∈
      (filteredFrame (workOf routesHeaderSampleDf) [] []).cols.map normString ∧
    normString "Order Country" ∈
      (filteredFrame (workOf routesHeaderSampleDf) [] []).cols.map normString ∧
    normString "Customer city" ∈
      (filteredFrame (workOf routesHeaderSampleDf) [] []).cols.map normString ∧
    normString "Customer Country" ∈
      (filteredFrame (workOf routesHeaderSampleDf) [] []).cols.map normString ∧
    routesStage (filteredFrame (workOf routesHeaderSampleDf) [] []) =
      RoutesResult.abort "Order city" := by
  refine ⟨by decide, by decide, by decide, by decide, by decide⟩

/-- C6 amended: the routes feature requires its four route columns and
`label` as exact literal column names (case-sensitive, no alias or
normalization matching) in the filtered frame; when one is absent it
aborts naming a required column that is missing verbatim — producing no
routes output, as the abort carries none — and when all five literal
names are present it produces the top-10 table from the route-extended
frame. -/
theorem claim_c6_amended (f : Frame) :
    (match routesStage f with
      | RoutesResult.abort c => c ∈ req_cols ∧ c ∉ f.cols
      | RoutesResult.ok rts f2 =>
        (∀ c ∈ req_cols, c ∈ f.cols) ∧ f2 = addRouteCols f ∧
        rts = top10Routes (routeGrp (addRouteCols f))) := by
  rcases hfind : req_cols.find? (fun c => !(f.cols.contains c)) with _ | c
  · have hall : ∀ c ∈ req_cols, c ∈ f.cols := by
      intro c hc
      have hnp := List.find?_eq_none.mp hfind c hc
      have hcn : f.cols.contains c = true := by simpa using hnp
      exact List.elem_iff.mp hcn
    simp only [routesStage]
    rw [hfind]
    exact ⟨hall, rfl, rfl⟩
  · have h1 : c ∈ req_cols := List.mem_of_find?_eq_some hfind
    have h2 := List.find?_some hfind
    have h3 : c ∉ f.cols := by
      intro hm
      have hc2 : f.cols.contains c = true := List.elem_iff.mpr hm
      rw [hc2] at h2
      simp at h2
    simp only [routesStage, hfind]
    exact ⟨h1, h3⟩

theorem firstMaxBy_eq_none_iff {α : Type} (val : α → Int) (l : List α) :
    firstMaxBy val l = none ↔ l = [] := by
  cases l with
  | nil => simp [firstMaxBy]
  | cons x xs =>
    rcases h : firstMaxBy val xs with _ | y <;> simp [firstMaxBy, h]

theorem firstMaxBy_mem {α : Type} (val : α → Int) (l : List α) (e : α)
    (h : firstMaxBy val l = some e) : e ∈ l := by
  induction l generalizing e with
  | nil => simp [firstMaxBy] at h
  | cons x xs ih =>
    simp only [firstMaxBy] at h
    rcases hr : firstMaxBy val xs with _ | y
    · rw [hr] at h
      simp at h
      subst h
      exact List.mem_cons_self x xs
    · rw [hr] at h
      simp at h
      by_cases hv : val x ≥ val y
      · rw [if_pos hv] at h
        subst h
        exact List.mem_cons_self x xs
      · rw [if_neg hv] at h
        subst h
        exact List.mem_cons_of_mem x (ih y hr)

theorem firstMaxBy_ge {α : Type} (val : α → Int) (l : List α) (e : α)
    (h : firstMaxBy val l = some e) : ∀ z ∈ l, val z ≤ val e := by
  induction l generalizing e with
  | nil => simp [firstMaxBy] at h
  | cons x xs ih =>
    simp only [firstMaxBy] at h
    rcases hr : firstMaxBy val xs with _ | y
    · rw [hr] at h
      simp at h
      subst h
      have hnil : xs = [] := (firstMaxBy_eq_none_iff val xs).mp hr
      subst hnil
      intro z hz
      simp at hz
      subst hz
      exact le_refl _
    · rw [hr] at h
      simp at h
      intro z hz
      rcases List.mem_cons.mp hz with rfl | hz2
      · by_cases hv : val z ≥ val y
        · rw [if_pos hv] at h
          subst h
          exact le_refl _
        · rw [if_neg hv] at h
          subst h
          exact le_of_lt (lt_of_not_ge hv)
      · by_cases hv : val x ≥ val y
        · rw [if_pos hv] at h
          subst h
          exact le_trans (ih y hr z hz2) hv
        · rw [if_neg hv] at h
          subst h
          exact ih y hr z hz2

theorem firstMaxBy_first {α : Type} (val : α → Int) (l : List α) (e : α)
    (h : firstMaxBy val l = some e) :
    ∃ l1 l2, l = l1 ++ e :: l2 ∧ ∀ y ∈ l1, val y < val e := by
  induction l generalizing e with
  | nil => simp [firstMaxBy] at h
  | cons x xs ih =>
    simp only [firstMaxBy] at h
    rcases hr : firstMaxBy val xs with _ | y
    · rw [hr] at h
      simp at h
      subst h
      exact ⟨[], xs, rfl, by simp⟩
    · rw [hr] at h
      simp at h
      by_cases hv : val x ≥ val y
      · rw [if_pos hv] at h
        subst h
        exact ⟨[], xs, rfl, by simp⟩
      · rw [if_neg hv] at h
        subst h
        obtain ⟨l1, l2, heq, hlt⟩ := ih y hr
        refine ⟨x :: l1, l2, by rw [heq, List.cons_append], ?_⟩
        intro z hz
        rcases List.mem_cons.mp hz with rfl | hz2
        · exact lt_of_not_ge hv
        · exact hlt z hz2

/-- C8. Most-profitable-product-per-region tie-break: every row of the
view belongs to the grouped profit table `prof_prod`; its summed profit
is maximal among its region's grouped rows; and it is the first row of
its region's group (in the grouped iteration order) attaining that
maximum — every strictly earlier row of the group has strictly smaller
summed profit.  The view is a pure function of the filtered frame, so
repeated runs on the same input give the identical result. -/
theorem claim_c8 (flt : Frame) (e : ProdRow) (he : e ∈ best_prod flt) :
    e ∈ prof_prod flt ∧
    (∀ e2 ∈ prof_prod flt, e2.order_region = e.order_region → e2.profit ≤ e.profit) ∧
    (∃ l1 l2,
      (prof_prod flt).filter (fun x => x.order_region == e.order_region) = l1 ++ e :: l2 ∧
      ∀ y ∈ l1, y.profit < e.profit) := by
  simp only [best_prod] at he
  obtain ⟨rg, hrg, hfm⟩ := List.mem_filterMap.mp he
  have hememb : e ∈ (prof_prod flt).filter (fun x => x.order_region == rg) :=
    firstMaxBy_mem _ _ _ hfm
  have hereg : e.order_region = rg := by
    have hpred := List.of_mem_filter hememb
    simpa using hpred
  subst hereg
  refine ⟨(List.mem_filter.mp hememb).1, ?_, ?_⟩
  · intro e2 h2 hreg
    have h2f : e2 ∈ (prof_prod flt).filter (fun x => x.order_region == e.order_region) :=
      List.mem_filter.mpr ⟨h2, by simp [hreg]⟩
    exact firstMaxBy_ge _ _ _ hfm e2 h2f
  · exact firstMaxBy_first _ _ _ hfm

/-- A concrete instance of C8: in region West, products Apple and Banana
tie at summed profit 100; the view keeps Apple, the first of the two in
the grouped (sorted) iteration order. -/
theorem claim_c8_witness :
    appleBest ∈ prof_prod tieSample ∧
    (∀ e2 ∈ prof_prod tieSample,
      e2.order_region = appleBest.order_region → e2.profit ≤ appleBest.profit) ∧
    (∃ l1 l2,
      (prof_prod tieSample).filter (fun x => x.order_region == appleBest.order_region) =
        l1 ++ appleBest :: l2 ∧
      ∀ y ∈ l1, y.profit < appleBest.profit) :=
  claim_c8 tieSample appleBest (by decide)

/-- C9 as stated is false: on a filtered frame carrying all five
required literal route columns, the frame `filtered` refers to after the
views have run is not the frame the filter stage produced — the routes
feature has written three more columns into it in place. -/
theorem claim_c9_counterexample :
    renderTail routesMutSample ≠ routesMutSample ∧
    (renderTail routesMutSample).cols =
      routesMutSample.cols ++ ["origin", "destination", "is_delayed"] := by
  refine ⟨by decide, by decide⟩

/-- C9 amended: every view before the routes feature reads the filtered
frame (the Standard-Class view derives `is_delayed` on its own copy,
`std_df`), and the routes feature is the only stage that writes into it:
when it aborts the frame is unchanged, and otherwise the final frame is
exactly the route-extended one, which appends the columns `origin`,
`destination`, `is_delayed` (when fresh) and preserves the cells of
every other column. -/
theorem claim_c9_amended (f : Frame) :
    (∀ c, routesStage f = RoutesResult.abort c → renderTail f = f) ∧
    ((∀ c ∈ req_cols, c ∈ f.cols) → renderTail f = addRouteCols f) ∧
    (∀ (c2 : String) (r : Row), c2 ≠ "origin" → c2 ≠ "destination" → c2 ≠ "is_delayed" →
      getCell (routeExtendRow r) c2 = getCell r c2) ∧
    ("origin" ∉ f.cols → "destination" ∉ f.cols → "is_delayed" ∉ f.cols →
      (addRouteCols f).cols = f.cols ++ ["origin", "destination", "is_delayed"]) := by
  refine ⟨?_, ?_, ?_, ?_⟩
  · intro c h
    simp [renderTail, h]
  · intro hall
    have hfind : req_cols.find? (fun c => !(f.cols.contains c)) = none := by
      rw [List.find?_eq_none]
      intro c hc
      have hc2 : f.cols.contains c = true := List.elem_iff.mpr (hall c hc)
      rw [hc2]
      simp
    simp only [renderTail, routesStage]
    rw [hfind]
  · intro c2 r h1 h2 h3
    simp [routeExtendRow, getCell_setCell, h1, h2, h3]
  · intro h1 h2 h3
    simp [addRouteCols, addColName, h1, h2, h3]

/-- A concrete instance of C9 amended: on the sample frame the final
frame is the route-extended one with exactly the three appended columns,
a non-derived column's cell is untouched by the row extension, and on a
frame missing a required route column the routes feature leaves the
filtered frame untouched. -/
theorem claim_c9_amended_witness :
    renderTail routesMutSample = addRouteCols routesMutSample ∧
    getCell (routeExtendRow [("label", Cell.num (-1))]) "label" =
      getCell [("label", Cell.num (-1))] "label" ∧
    (addRouteCols routesMutSample).cols =
      routesMutSample.cols ++ ["origin", "destination", "is_delayed"] ∧
    renderTail missingRegionWork = missingRegionWork :=
  ⟨(claim_c9_amended routesMutSample).2.1 (by decide),
   (claim_c9_amended routesMutSample).2.2.1 "label" [("label", Cell.num (-1))]
     (by decide) (by decide) (by decide),
   (claim_c9_amended routesMutSample).2.2.2 (by decide) (by decide) (by decide),
   (claim_c9_amended missingRegionWork).1 "Order city" (by decide)⟩

end OrderDashboard
